import Mathlib

/-!
Verification of the cart / order-placement / inventory core of the storefront
application.  The definitions below are shallow embeddings of the TypeScript
source: cart operations from `context/cartContext.tsx`, the connectivity
signal from `context/authContext.tsx`, the inventory and order services from
`services/inventory.tsx` (and the order service concatenated with it), and the
checkout screen logic (`validateOrder`, `handlePlaceOrder`).  Currency amounts
are modelled as rationals, timestamps as natural numbers, and the remote
document store as an explicit state record threaded through each operation.
-/

/-- A product as used by the cart (`types/product.tsx`); only fields the
embedded operations read are kept. -/
structure Product where
  id : String
  name : String
  price : ℚ
  imageUrl : String
  inStock : Bool
deriving Repr, DecidableEq

/-- One cart line (`CartItem` in `context/cartContext.tsx`): an order-item
snapshot plus the product image. -/
structure CartItem where
  productId : String
  productName : String
  productImage : String
  quantity : Int
  price : ℚ
deriving Repr, DecidableEq

/-- `addToCart` from `context/cartContext.tsx`: if a line for `product.id`
exists (first match), increment its quantity by `quantity`; otherwise append a
new line snapshotting the product's id/name/image/price. -/
def addToCart (product : Product) (quantity : Int) : List CartItem → List CartItem
  | [] => [⟨product.id, product.name, product.imageUrl, quantity, product.price⟩]
  | item :: rest =>
    if item.productId = product.id then
      { item with quantity := item.quantity + quantity } :: rest
    else
      item :: addToCart product quantity rest

/-- `removeFromCart`: keep the lines whose `productId` differs. -/
def removeFromCart (productId : String) (items : List CartItem) : List CartItem :=
  items.filter (fun item => item.productId != productId)

/-- `updateQuantity`: set the matching line's quantity, clamped to a minimum
of 1 (`Math.max(1, quantity)`); other lines unchanged. -/
def updateQuantity (productId : String) (quantity : Int) (items : List CartItem) :
    List CartItem :=
  items.map (fun item =>
    if item.productId = productId then { item with quantity := max 1 quantity } else item)

/-- `clearCart`: empties all lines. -/
def clearCart : List CartItem := []

/-- `totalItems`: reduce over the lines summing quantities. -/
def totalItems (items : List CartItem) : Int :=
  items.foldl (fun total item => total + item.quantity) 0

/-- `totalAmount`: reduce over the lines summing `price * quantity`. -/
def totalAmount (items : List CartItem) : ℚ :=
  items.foldl (fun total item => total + item.price * (item.quantity : ℚ)) 0

/-- The product ids of the cart lines, in order. -/
def cartKeys (items : List CartItem) : List String :=
  items.map (·.productId)

/-- The cart invariants of §3 of the spec: no two lines share a `productId`,
and every line's quantity is at least 1. -/
def cartInv (items : List CartItem) : Prop :=
  (cartKeys items).Nodup ∧ ∀ item ∈ items, 1 ≤ item.quantity

instance (items : List CartItem) : Decidable (cartInv items) := by
  unfold cartInv; infer_instance

/-- The quantity held in the cart for a product id (0 when absent). -/
def cartQuantity (items : List CartItem) (productId : String) : Int :=
  match items.find? (fun item => item.productId == productId) with
  | some item => item.quantity
  | none => 0

/-- One user-level cart mutation. -/
inductive CartOp where
  | add (p : Product) (q : Int)
  | remove (pid : String)
  | update (pid : String) (q : Int)
deriving Repr, DecidableEq

/-- Apply one cart mutation. -/
def applyCartOp (cart : List CartItem) : CartOp → List CartItem
  | .add p q => addToCart p q cart
  | .remove pid => removeFromCart pid cart
  | .update pid q => updateQuantity pid q cart

/-- Run a sequence of cart mutations starting from the empty cart. -/
def runCartOps (ops : List CartOp) : List CartItem :=
  ops.foldl applyCartOp []

/-- The `NetInfo` event payload fields consumed by the listener in
`context/authContext.tsx` (`types/netinfo.tsx`: both are `boolean | null`). -/
structure NetState where
  isConnected : Option Bool
  isInternetReachable : Option Bool
deriving Repr, DecidableEq

/-- JavaScript truthiness of a `boolean | null` value. -/
def jsTruthy : Option Bool → Bool
  | some b => b
  | none => false

/-- JavaScript `&&` on `boolean | null` values: returns the first operand when
it is falsy, otherwise the second. -/
def jsAnd (a b : Option Bool) : Option Bool :=
  if jsTruthy a then b else a

/-- The `AuthProvider` network listener's published signal:
`const offline = !(state.isConnected && state.isInternetReachable)`. -/
def offlineOf (s : NetState) : Bool :=
  !(jsTruthy (jsAnd s.isConnected s.isInternetReachable))

/-- Order status (`types/order` is not among the provided sources; the five
states follow §3 of the spec and the literals used by the order service). -/
inductive OrderStatus where
  | pending | processing | shipped | delivered | cancelled
deriving Repr, DecidableEq

/-- A persisted order line item: snapshot of a cart line without the image. -/
structure OrderItem where
  productId : String
  productName : String
  quantity : Int
  price : ℚ
deriving Repr, DecidableEq

/-- An order record as persisted by `createOrder` (fields follow §3 of the
spec and the `orderData` object built in the order service). -/
structure Order where
  id : String
  userId : String
  items : List OrderItem
  totalAmount : ℚ
  status : OrderStatus
  createdAt : Nat
  updatedAt : Nat
  collectionDate : Option Nat
  collectionTime : Option String
deriving Repr, DecidableEq

/-- The fields of a product document touched by the inventory service. -/
structure ProductDoc where
  inStock : Bool
  updatedAt : Nat
deriving Repr, DecidableEq

/-- An inventory record (`types/inventory.tsx`). -/
structure InventoryItem where
  id : String
  productId : String
  quantity : Int
  location : String
  lastStockUpdate : Nat
deriving Repr, DecidableEq

/-- The remote document store: product documents keyed by id, inventory
documents, and order documents.  Document ids are unique in Firestore; lookups
below take the first match, and id-keyed updates rewrite every match, which
agree on well-formed states. -/
structure DB where
  products : List (String × ProductDoc)
  inventory : List InventoryItem
  orders : List Order
deriving Repr, DecidableEq

/-- `getDoc` on the products collection. -/
def getProductDoc (db : DB) (productId : String) : Option ProductDoc :=
  (db.products.find? (fun e => e.1 == productId)).map (·.2)

/-- `getInventoryByProductId`: query by `productId`, first matching document. -/
def getInventoryByProductId (db : DB) (productId : String) : Option InventoryItem :=
  db.inventory.find? (fun item => item.productId == productId)

/-- `transaction.get` / `doc` lookup of an inventory document by its id. -/
def getInventoryById (db : DB) (inventoryId : String) : Option InventoryItem :=
  db.inventory.find? (fun item => item.id == inventoryId)

/-- The product-side write shared by the inventory operations: set the
product's `inStock` flag and `updatedAt` timestamp. -/
def setProductInStock (db : DB) (productId : String) (flag : Bool) (now : Nat) : DB :=
  { db with
    products := db.products.map (fun e =>
      if e.1 == productId then (e.1, ⟨flag, now⟩) else e) }

/-- `updateInventoryQuantity` from `services/inventory.tsx`: inside one
transaction, look up the inventory document (error when absent), set its
`quantity` and `lastStockUpdate`, and set the product's `inStock` to
`newQuantity > 0`.  `transaction.update` on a missing product document makes
the whole transaction fail with nothing written. -/
def updateInventoryQuantity (db : DB) (inventoryId : String) (newQuantity : Int)
    (now : Nat) : DB × Except String Unit :=
  match getInventoryById db inventoryId with
  | none => (db, .error "Inventory item does not exist")
  | some inv =>
    match getProductDoc db inv.productId with
    | none => (db, .error "No document to update")
    | some _ =>
      let db1 : DB :=
        { db with
          inventory := db.inventory.map (fun item =>
            if item.id == inventoryId then
              { item with quantity := newQuantity, lastStockUpdate := now }
            else item) }
      (setProductInStock db1 inv.productId (decide (0 < newQuantity)) now, .ok ())

/-- `deleteInventoryItem`: inside one transaction, look up the inventory
document (error when absent), delete it, and set the product's `inStock` to
`false`. -/
def deleteInventoryItem (db : DB) (inventoryId : String) (now : Nat) :
    DB × Except String Unit :=
  match getInventoryById db inventoryId with
  | none => (db, .error "Inventory item does not exist")
  | some inv =>
    match getProductDoc db inv.productId with
    | none => (db, .error "No document to update")
    | some _ =>
      let db1 : DB :=
        { db with inventory := db.inventory.filter (fun item => item.id != inventoryId) }
      (setProductInStock db1 inv.productId false now, .ok ())

/-- The argument of `addInventoryItem` (`Omit<InventoryItem, 'id' | 'lastStockUpdate'>`). -/
structure InventoryInput where
  productId : String
  quantity : Int
  location : String
deriving Repr, DecidableEq

/-- `addInventoryItem`: error when the product does not exist or an inventory
record for it already exists; otherwise add the record (`addDoc` picks the
fresh id `newId`) and set the product's `inStock` to `quantity > 0`. -/
def addInventoryItem (db : DB) (input : InventoryInput) (newId : String) (now : Nat) :
    DB × Except String String :=
  match getProductDoc db input.productId with
  | none => (db, .error "Product does not exist")
  | some _ =>
    match getInventoryByProductId db input.productId with
    | some _ => (db, .error "Inventory item already exists for this product")
    | none =>
      let db1 : DB :=
        { db with inventory := db.inventory ++ [⟨newId, input.productId, input.quantity, input.location, now⟩] }
      (setProductInStock db1 input.productId (decide (0 < input.quantity)) now, .ok newId)

/-- One element of the list handed to `adjustInventoryAfterOrder`. -/
structure AdjustItem where
  productId : String
  quantity : Int
deriving Repr, DecidableEq

/-- `adjustInventoryAfterOrder`: for each order item in sequence, look up the
inventory record by product id (error when absent), error when held quantity
is below the requested quantity, otherwise decrement through
`updateInventoryQuantity`.  An error aborts the remaining items but keeps the
state already written for the earlier items. -/
def adjustInventoryAfterOrder (now : Nat) : DB → List AdjustItem → DB × Except String Unit
  | db, [] => (db, .ok ())
  | db, item :: rest =>
    match getInventoryByProductId db item.productId with
    | none => (db, .error ("No inventory found for product ID: " ++ item.productId))
    | some inv =>
      if inv.quantity < item.quantity then
        (db, .error ("Insufficient stock for product ID: " ++ item.productId))
      else
        match updateInventoryQuantity db inv.id (inv.quantity - item.quantity) now with
        | (db1, .ok _) => adjustInventoryAfterOrder now db1 rest
        | (db1, .error e) => (db1, .error e)

/-- The total recomputed inside `createOrder`:
`items.reduce((sum, item) => sum + item.price * item.quantity, 0)`. -/
def calculatedTotal (items : List OrderItem) : ℚ :=
  items.foldl (fun sum item => sum + item.price * (item.quantity : ℚ)) 0

/-- The projection `items.map(item => ({productId, quantity}))` passed by
`createOrder` to `adjustInventoryAfterOrder`. -/
def orderToAdjustItems (items : List OrderItem) : List AdjustItem :=
  items.map (fun i => ⟨i.productId, i.quantity⟩)

/-- The order document persisted by `createOrder`: status `pending`, both
timestamps set to now. -/
def pendingOrder (newOrderId userId : String) (items : List OrderItem) (totalAmount : ℚ)
    (collectionDate : Option Nat) (collectionTime : Option String) (now : Nat) : Order :=
  ⟨newOrderId, userId, items, totalAmount, .pending, now, now, collectionDate, collectionTime⟩

/-- `createOrder` from the order service: recompute the total, error when it
differs from the supplied total by more than 0.01, persist the pending order
(`addDoc` picks the fresh id `newOrderId`), then adjust inventory; an
adjustment error propagates while the order stays persisted. -/
def createOrder (db : DB) (userId : String) (items : List OrderItem) (totalAmount : ℚ)
    (collectionDate : Option Nat) (collectionTime : Option String) (now : Nat)
    (newOrderId : String) : DB × Except String String :=
  if |calculatedTotal items - totalAmount| > 1 / 100 then
    (db, .error "Order total mismatch")
  else
    let db1 : DB :=
      { db with
        orders := db.orders ++
          [pendingOrder newOrderId userId items totalAmount collectionDate collectionTime now] }
    match adjustInventoryAfterOrder now db1 (orderToAdjustItems items) with
    | (db2, .ok _) => (db2, .ok newOrderId)
    | (db2, .error e) => (db2, .error e)

/-- The checkout screen's component state consumed by `handlePlaceOrder`:
cart lines, the chosen collection date (`null` initially), the chosen
collection time (`''` initially), and the authenticated user's id. -/
structure CheckoutState where
  cartItems : List CartItem
  collectionDate : Option Nat
  collectionTime : String
  currentUser : Option String
deriving Repr, DecidableEq

/-- `validateOrder` from the checkout screen: the alert `(title, message)`
shown on rejection, `none` when the order is valid.  Checks run in source
order: empty cart, missing date, missing time, date in the past. -/
def validateOrder (s : CheckoutState) (now : Nat) : Option (String × String) :=
  if s.cartItems.isEmpty then
    some ("Empty Cart", "Your cart is empty. Please add items before checkout.")
  else
    match s.collectionDate with
    | none => some ("Missing Information", "Please select a collection date.")
    | some d =>
      if s.collectionTime = "" then
        some ("Missing Information", "Please select a collection time.")
      else if d < now then
        some ("Invalid Date", "Collection date must be in the future.")
      else
        none

/-- The snapshot `cartItems.map(item => ({productId, productName, quantity, price}))`
built by `handlePlaceOrder`. -/
def cartToOrderItems (items : List CartItem) : List OrderItem :=
  items.map (fun i => ⟨i.productId, i.productName, i.quantity, i.price⟩)

/-- Modelled from the spec (§4.4, §7): a remote Firestore write attempted
while the device is offline fails with a network-classified error and
persists nothing.  The checkout screen itself contains no connectivity
check, so this stands in for the SDK's behaviour of its `createOrder` call. -/
def offlineWriteError : String := "network request failed"

/-- The success alert message of `handlePlaceOrder`. -/
def successMessage : String :=
  "Your order has been placed. You can collect your items at the store on the specified date and time."

/-- The catch-all failure alert message of `handlePlaceOrder`. -/
def genericFailureMessage : String := "Failed to place your order. Please try again."

/-- Everything observable about one `handlePlaceOrder` run: whether the
remote `createOrder` call was attempted, the resulting store state, the cart
contents afterwards, and the alert shown. -/
structure PlaceOrderResult where
  remoteAttempted : Bool
  db : DB
  cartAfter : List CartItem
  alert : Option (String × String)
deriving Repr, DecidableEq

/-- `handlePlaceOrder` from the checkout screen: return early when
`validateOrder` rejects (its alert is shown) or when the user or date is
missing (silently); otherwise call `createOrder` with the snapshotted items
and the cart's `totalAmount` — with no connectivity check of any kind —
then clear the cart and show the success alert, or on any thrown error show
the generic failure alert with the cart untouched. -/
def handlePlaceOrder (s : CheckoutState) (offline : Bool) (db : DB) (now : Nat)
    (newOrderId : String) : PlaceOrderResult :=
  match validateOrder s now with
  | some a => ⟨false, db, s.cartItems, some a⟩
  | none =>
    match s.currentUser, s.collectionDate with
    | some uid, some cd =>
      let res :=
        if offline then (db, Except.error offlineWriteError)
        else
          createOrder db uid (cartToOrderItems s.cartItems) (totalAmount s.cartItems)
            (some cd) (some s.collectionTime) now newOrderId
      match res with
      | (db1, .ok _) => ⟨true, db1, clearCart, some ("Order Placed Successfully", successMessage)⟩
      | (db1, .error _) => ⟨true, db1, s.cartItems, some ("Error", genericFailureMessage)⟩
    | _, _ => ⟨false, db, s.cartItems, none⟩

deriving instance DecidableEq for Except

/-- Fixture: the sample product of the spec scenarios. -/
def sampleProduct : Product := ⟨"p1", "Wooden Knife", 100, "img", true⟩

/-- Fixture: a second product. -/
def sampleProduct2 : Product := ⟨"p2", "Butter Knife", 50, "img2", true⟩

/-- Fixture: a cart holding two units of `p1`. -/
def sampleCart : List CartItem := [⟨"p1", "Wooden Knife", "img", 2, 100⟩]

/-- Fixture: a checkout state with a valid future date and time. -/
def sampleCheckout : CheckoutState := ⟨sampleCart, some 10, "9:00 AM", some "u1"⟩

/-- Fixture: store with five units of `p1` on hand. -/
def stockedDB : DB := ⟨[("p1", ⟨true, 0⟩)], [⟨"i1", "p1", 5, "Shelf A", 0⟩], []⟩

/-- Fixture: store with a single unit of `p1` on hand. -/
def lowStockDB : DB := ⟨[("p1", ⟨true, 0⟩)], [⟨"i1", "p1", 1, "Shelf A", 0⟩], []⟩

/-- Fixture: store with stock for `p1` but only one unit of `p2`. -/
def twoItemDB : DB :=
  ⟨[("p1", ⟨true, 0⟩), ("p2", ⟨true, 0⟩)],
   [⟨"i1", "p1", 5, "Shelf A", 0⟩, ⟨"i2", "p2", 1, "Shelf B", 0⟩], []⟩

/-- Fixture: store with a `p1` product document and no inventory records. -/
def emptyInvDB : DB := ⟨[("p1", ⟨true, 0⟩)], [], []⟩

theorem cartKeys_cons (i : CartItem) (l : List CartItem) :
    cartKeys (i :: l) = i.productId :: cartKeys l := rfl

theorem mem_cartKeys_addToCart (p : Product) (q : Int) (l : List CartItem) :
    ∀ x ∈ cartKeys (addToCart p q l), x = p.id ∨ x ∈ cartKeys l := by
  induction l with
  | nil =>
    intro x hx
    simp [addToCart, cartKeys] at hx
    exact Or.inl hx
  | cons item rest ih =>
    intro x hx
    by_cases h : item.productId = p.id
    · rw [addToCart, if_pos h, cartKeys_cons] at hx
      rcases List.mem_cons.mp hx with hx | hx
      · exact Or.inl (by rw [hx]; exact h)
      · exact Or.inr (List.mem_cons_of_mem _ hx)
    · rw [addToCart, if_neg h, cartKeys_cons] at hx
      rcases List.mem_cons.mp hx with hx | hx
      · exact Or.inr (by rw [hx, cartKeys_cons]; exact List.mem_cons_self _ _)
      · rcases ih x hx with h1 | h1
        · exact Or.inl h1
        · exact Or.inr (by rw [cartKeys_cons]; exact List.mem_cons_of_mem _ h1)

theorem cartKeys_addToCart_nodup (p : Product) (q : Int) (l : List CartItem)
    (h : (cartKeys l).Nodup) : (cartKeys (addToCart p q l)).Nodup := by
  induction l with
  | nil => simp [addToCart, cartKeys]
  | cons item rest ih =>
    rw [cartKeys_cons, List.nodup_cons] at h
    by_cases hpid : item.productId = p.id
    · simpa [addToCart, if_pos hpid, cartKeys_cons, List.nodup_cons] using h
    · rw [addToCart, if_neg hpid, cartKeys_cons, List.nodup_cons]
      refine ⟨fun hmem => ?_, ih h.2⟩
      rcases mem_cartKeys_addToCart p q rest item.productId hmem with h1 | h1
      · exact hpid h1
      · exact h.1 h1

theorem addToCart_quantity_ge_one (p : Product) (q : Int) (hq : 1 ≤ q)
    (l : List CartItem) (h : ∀ i ∈ l, 1 ≤ i.quantity) :
    ∀ i ∈ addToCart p q l, 1 ≤ i.quantity := by
  induction l with
  | nil =>
    intro i hi
    simp [addToCart] at hi
    simp [hi, hq]
  | cons item rest ih =>
    intro i hi
    by_cases hpid : item.productId = p.id
    · rw [addToCart, if_pos hpid] at hi
      rcases List.mem_cons.mp hi with hi | hi
      · have h1 : 1 ≤ item.quantity := h item (by simp)
        subst hi
        simp only []
        omega
      · exact h i (by simp [hi])
    · rw [addToCart, if_neg hpid] at hi
      rcases List.mem_cons.mp hi with hi | hi
      · exact hi ▸ h item (by simp)
      · exact ih (fun j hj => h j (by simp [hj])) i hi

theorem cartKeys_updateQuantity (pid : String) (q : Int) (l : List CartItem) :
    cartKeys (updateQuantity pid q l) = cartKeys l := by
  induction l with
  | nil => rfl
  | cons item rest ih =>
    by_cases h : item.productId = pid <;>
      simp [updateQuantity, cartKeys_cons, h] <;>
      simpa [updateQuantity, cartKeys] using ih

theorem removeFromCart_nodup (pid : String) (l : List CartItem)
    (h : (cartKeys l).Nodup) : (cartKeys (removeFromCart pid l)).Nodup := by
  have hsub : List.Sublist (removeFromCart pid l) l := List.filter_sublist l
  have h2 : ((removeFromCart pid l).map (fun i => i.productId)).Nodup :=
    (hsub.map (fun i => i.productId)).nodup (by simpa [cartKeys] using h)
  simpa [cartKeys] using h2

theorem updateQuantity_mem (pid : String) (q : Int) (l : List CartItem) :
    ∀ i ∈ updateQuantity pid q l,
      (i.quantity = max 1 q ∧ i.productId = pid) ∨ (i ∈ l ∧ i.productId ≠ pid) := by
  intro i hi
  rcases List.mem_map.mp hi with ⟨j, hj, hij⟩
  by_cases h : j.productId = pid
  · left
    rw [← hij]
    simp [h]
  · right
    rw [← hij]
    simp only [if_neg h]
    exact ⟨hj, h⟩

theorem cartQuantity_addToCart (p : Product) (q : Int) (l : List CartItem) :
    cartQuantity (addToCart p q l) p.id = cartQuantity l p.id + q := by
  induction l with
  | nil => simp [addToCart, cartQuantity]
  | cons item rest ih =>
    by_cases h : item.productId = p.id
    · rw [addToCart, if_pos h]
      simp [cartQuantity, List.find?_cons, h]
    · rw [addToCart, if_neg h]
      have hb : (item.productId == p.id) = false := by simpa using h
      simpa [cartQuantity, List.find?_cons, hb] using ih

theorem filter_eq_nil_of_not_mem_keys (pid : String) (l : List CartItem)
    (h : pid ∉ cartKeys l) :
    l.filter (fun i => i.productId == pid) = [] := by
  rw [List.filter_eq_nil_iff]
  intro i hi
  simp only [beq_iff_eq]
  intro hpid
  exact h (hpid ▸ List.mem_map_of_mem (·.productId) hi)

theorem filter_addToCart_length (p : Product) (q : Int) (l : List CartItem)
    (h : (cartKeys l).Nodup) :
    ((addToCart p q l).filter (fun i => i.productId == p.id)).length = 1 := by
  induction l with
  | nil => simp [addToCart]
  | cons item rest ih =>
    rw [cartKeys_cons, List.nodup_cons] at h
    by_cases hpid : item.productId = p.id
    · rw [addToCart, if_pos hpid]
      have hrest : rest.filter (fun i => i.productId == p.id) = [] :=
        filter_eq_nil_of_not_mem_keys p.id rest (hpid ▸ h.1)
      simp [List.filter_cons, hpid, hrest]
    · rw [addToCart, if_neg hpid]
      have hb : (item.productId == p.id) = false := by simpa using hpid
      simpa [List.filter_cons, hb] using ih h.2

theorem foldl_add_map {α : Type} [AddCommMonoid α] (f : CartItem → α) (l : List CartItem) :
    ∀ a : α, l.foldl (fun t i => t + f i) a = a + (l.map f).sum := by
  induction l with
  | nil => intro a; simp
  | cons x xs ih => intro a; simp [List.foldl_cons, ih, add_assoc]

/-- C5: every cart operation (`addToCart`, `removeFromCart`, `updateQuantity`,
`clearCart`) preserves the cart invariants — no two lines share a `productId`
and every line's quantity is at least 1 — with `addToCart` taken at the
positive quantities of the data model (§3); `updateQuantity` clamps any
requested quantity below 1 up to 1, so `updateQuantity pid 0` leaves the
matching line with quantity `max 1 0 = 1`. -/
theorem cart_ops_preserve_invariants (cart : List CartItem) (h : cartInv cart) :
    (∀ (p : Product) (q : Int), 1 ≤ q → cartInv (addToCart p q cart)) ∧
    (∀ pid : String, cartInv (removeFromCart pid cart)) ∧
    (∀ (pid : String) (q : Int), cartInv (updateQuantity pid q cart)) ∧
    (∀ (pid : String) (q : Int), ∀ i ∈ updateQuantity pid q cart,
      i.productId = pid → i.quantity = max 1 q) ∧
    cartInv clearCart := by
  obtain ⟨hnd, hq⟩ := h
  refine ⟨?_, ?_, ?_, ?_, ?_⟩
  · exact fun p q hq1 => ⟨cartKeys_addToCart_nodup p q cart hnd,
      addToCart_quantity_ge_one p q hq1 cart hq⟩
  · exact fun pid => ⟨removeFromCart_nodup pid cart hnd,
      fun i hi => hq i (List.mem_of_mem_filter hi)⟩
  · intro pid q
    refine ⟨by rw [cartKeys_updateQuantity]; exact hnd, fun i hi => ?_⟩
    rcases updateQuantity_mem pid q cart i hi with ⟨h1, _⟩ | ⟨h1, _⟩
    · rw [h1]; exact le_max_left 1 q
    · exact hq i h1
  · intro pid q i hi hpid
    rcases updateQuantity_mem pid q cart i hi with ⟨h1, _⟩ | ⟨_, h2⟩
    · exact h1
    · exact absurd hpid h2
  · exact ⟨List.nodup_nil, by simp [clearCart]⟩

/-- Witness for C5 at the sample cart: adding a fresh product with quantity 1
and clamping an existing line to quantity 0 both keep the invariants. -/
theorem cart_ops_preserve_invariants_witness :
    cartInv (addToCart sampleProduct2 1 sampleCart) ∧
    cartInv (updateQuantity "p1" 0 sampleCart) :=
  ⟨(cart_ops_preserve_invariants sampleCart (by decide)).1 sampleProduct2 1 (by decide),
   (cart_ops_preserve_invariants sampleCart (by decide)).2.2.1 "p1" 0⟩

/-- C6: on a cart with distinct product ids, adding the same product twice
with quantities `q1` then `q2` leaves exactly one line for `p.id`, whose
quantity is the previous quantity for `p.id` (0 when absent) plus `q1 + q2`. -/
theorem addToCart_twice_single_line (cart : List CartItem) (p : Product) (q1 q2 : Int)
    (h : (cartKeys cart).Nodup) :
    ((addToCart p q2 (addToCart p q1 cart)).filter
        (fun i => i.productId == p.id)).length = 1 ∧
    cartQuantity (addToCart p q2 (addToCart p q1 cart)) p.id =
      cartQuantity cart p.id + (q1 + q2) := by
  refine ⟨filter_addToCart_length p q2 _ (cartKeys_addToCart_nodup p q1 cart h), ?_⟩
  rw [cartQuantity_addToCart, cartQuantity_addToCart, add_assoc]

/-- Witness for C6: adding `p1` with quantities 2 then 3 to the sample cart
(which already holds 2 units of `p1`) gives one line with quantity 2 + (2+3). -/
theorem addToCart_twice_single_line_witness :
    ((addToCart sampleProduct 3 (addToCart sampleProduct 2 sampleCart)).filter
        (fun i => i.productId == sampleProduct.id)).length = 1 ∧
    cartQuantity (addToCart sampleProduct 3 (addToCart sampleProduct 2 sampleCart))
        sampleProduct.id = cartQuantity sampleCart sampleProduct.id + (2 + 3) :=
  addToCart_twice_single_line sampleCart sampleProduct 2 3 (by decide)

/-- C7: after any finite sequence of cart mutations starting from the empty
cart, `totalItems` equals the sum of the line quantities and `totalAmount`
equals the sum of `price * quantity` — both are computed by a fresh reduce
over the line list, never cached. -/
theorem cart_totals_recomputed (ops : List CartOp) :
    totalItems (runCartOps ops) = ((runCartOps ops).map (fun i => i.quantity)).sum ∧
    totalAmount (runCartOps ops) =
      ((runCartOps ops).map (fun i => i.price * (i.quantity : ℚ))).sum := by
  constructor
  · simpa [totalItems] using foldl_add_map (fun i => i.quantity) (runCartOps ops) 0
  · simpa [totalAmount] using
      foldl_add_map (fun i => i.price * (i.quantity : ℚ)) (runCartOps ops) 0

/-- C9: the published offline signal is the negation of the conjunction of
raw link connectivity and internet reachability — with JavaScript truthiness
for the `boolean | null` inputs, the device counts as offline exactly when it
is not both connected and internet-reachable. -/
theorem offline_signal_is_nand (s : NetState) :
    offlineOf s = !(jsTruthy s.isConnected && jsTruthy s.isInternetReachable) ∧
    (offlineOf s = true ↔
      ¬(s.isConnected = some true ∧ s.isInternetReachable = some true)) := by
  obtain ⟨c, r⟩ := s
  rcases c with _ | (_ | _) <;> rcases r with _ | (_ | _) <;>
    simp [offlineOf, jsAnd, jsTruthy]

theorem find?_map_comm {α : Type} (f : α → α) (q : α → Bool)
    (hq : ∀ x, q (f x) = q x) (l : List α) :
    (l.map f).find? q = (l.find? q).map f := by
  induction l with
  | nil => rfl
  | cons x xs ih =>
    by_cases h : q x = true
    · rw [List.map_cons, List.find?_cons_of_pos _ (by rw [hq]; exact h),
        List.find?_cons_of_pos _ h]
      rfl
    · rw [List.map_cons, List.find?_cons_of_neg _ (by rw [hq]; exact h),
        List.find?_cons_of_neg _ h, ih]

theorem setProductInStock_inventory (db : DB) (pid : String) (flag : Bool) (now : Nat) :
    (setProductInStock db pid flag now).inventory = db.inventory := rfl

theorem setProductInStock_orders (db : DB) (pid : String) (flag : Bool) (now : Nat) :
    (setProductInStock db pid flag now).orders = db.orders := rfl

theorem getProductDoc_setProductInStock (db : DB) (pid : String) (flag : Bool) (now : Nat)
    (p0 : ProductDoc) (h : getProductDoc db pid = some p0) :
    getProductDoc (setProductInStock db pid flag now) pid = some ⟨flag, now⟩ := by
  have hcomm := find?_map_comm
    (fun e : String × ProductDoc => if e.1 == pid then (e.1, ⟨flag, now⟩) else e)
    (fun e => e.1 == pid)
    (fun e => by by_cases he : (e.1 == pid) = true <;> simp [he]) db.products
  show ((db.products.map fun e => if e.1 == pid then (e.1, ⟨flag, now⟩) else e).find?
      (fun e => e.1 == pid)).map (·.2) = some ⟨flag, now⟩
  rw [hcomm]
  unfold getProductDoc at h
  cases hfind : db.products.find? (fun e => e.1 == pid) with
  | none => rw [hfind] at h; simp at h
  | some kp =>
    have hk := List.find?_some hfind
    simp only [] at hk
    have hk2 : kp.1 = pid := by simpa using hk
    simp [hk2]

theorem updateInventoryQuantity_orders (db : DB) (invId : String) (newQ : Int) (now : Nat) :
    ((updateInventoryQuantity db invId newQ now).1).orders = db.orders := by
  unfold updateInventoryQuantity
  cases hfind : getInventoryById db invId with
  | none => rfl
  | some inv =>
    cases hp : getProductDoc db inv.productId with
    | none => simp [hp]
    | some p => simp [hp, setProductInStock]

theorem adjust_orders (now : Nat) : ∀ (l : List AdjustItem) (db : DB),
    ((adjustInventoryAfterOrder now db l).1).orders = db.orders := by
  intro l
  induction l with
  | nil => intro db; rfl
  | cons x rest ih =>
    intro db
    cases hfind : getInventoryByProductId db x.productId with
    | none => simp [adjustInventoryAfterOrder, hfind]
    | some inv =>
      by_cases hlt : inv.quantity < x.quantity
      · simp [adjustInventoryAfterOrder, hfind, hlt]
      · have horders := updateInventoryQuantity_orders db inv.id (inv.quantity - x.quantity) now
        cases hupd : updateInventoryQuantity db inv.id (inv.quantity - x.quantity) now with
        | mk db1 res =>
          rw [hupd] at horders
          cases res with
          | ok u =>
            simp only [adjustInventoryAfterOrder, hfind, if_neg hlt, hupd]
            rw [ih db1]
            exact horders
          | error e =>
            simp only [adjustInventoryAfterOrder, hfind, if_neg hlt, hupd]
            exact horders

theorem adjust_append (now : Nat) (l₁ l₂ : List AdjustItem) : ∀ db : DB,
    adjustInventoryAfterOrder now db (l₁ ++ l₂) =
      match adjustInventoryAfterOrder now db l₁ with
      | (db1, Except.ok _) => adjustInventoryAfterOrder now db1 l₂
      | (db1, Except.error e) => (db1, Except.error e) := by
  induction l₁ with
  | nil => intro db; rfl
  | cons x rest ih =>
    intro db
    rw [List.cons_append]
    cases hfind : getInventoryByProductId db x.productId with
    | none => simp [adjustInventoryAfterOrder, hfind]
    | some inv =>
      by_cases hlt : inv.quantity < x.quantity
      · simp [adjustInventoryAfterOrder, hfind, hlt]
      · cases hupd : updateInventoryQuantity db inv.id (inv.quantity - x.quantity) now with
        | mk db1 res =>
          cases res with
          | ok u =>
            simp only [adjustInventoryAfterOrder, hfind, if_neg hlt, hupd]
            exact ih db1
          | error e =>
            simp [adjustInventoryAfterOrder, hfind, hlt, hupd]

theorem updateInventoryQuantity_ok (db : DB) (invId : String) (newQ : Int) (now : Nat)
    (db' : DB) (u : Unit)
    (hok : updateInventoryQuantity db invId newQ now = (db', Except.ok u)) :
    ∃ inv, getInventoryById db invId = some inv ∧
      db'.inventory = db.inventory.map (fun item =>
        if item.id == invId then { item with quantity := newQ, lastStockUpdate := now }
        else item) ∧
      getProductDoc db' inv.productId = some ⟨decide (0 < newQ), now⟩ := by
  unfold updateInventoryQuantity at hok
  cases hfind : getInventoryById db invId with
  | none =>
    simp only [hfind] at hok
    simp at hok
  | some inv =>
    simp only [hfind] at hok
    cases hp : getProductDoc db inv.productId with
    | none =>
      simp only [hp] at hok
      simp at hok
    | some p =>
      simp only [hp] at hok
      simp only [Prod.mk.injEq] at hok
      obtain ⟨hdb, -⟩ := hok
      refine ⟨inv, rfl, ?_, ?_⟩
      · rw [← hdb]
        rfl
      · rw [← hdb]
        exact getProductDoc_setProductInStock _ inv.productId _ now p hp

theorem getInventoryByProductId_after_update (dbA dbB : DB) (inv : InventoryItem)
    (newQ : Int) (now : Nat) (pid : String)
    (hsome : getInventoryByProductId dbA pid = some inv)
    (hinv : dbB.inventory = dbA.inventory.map (fun item =>
      if item.id == inv.id then { item with quantity := newQ, lastStockUpdate := now }
      else item)) :
    getInventoryByProductId dbB pid =
      some { inv with quantity := newQ, lastStockUpdate := now } := by
  unfold getInventoryByProductId at hsome ⊢
  rw [hinv, find?_map_comm _ _ (fun item => by
      by_cases hid : (item.id == inv.id) = true <;> simp [hid]), hsome]
  simp

/-- C4: `adjustInventoryAfterOrder` is strictly sequential and not
transactional across items: after a successfully adjusted prefix leaving
state `db'`, the next item fails when no inventory record matches its product
id, fails when held quantity is strictly below the requested quantity — in
both cases returning exactly the state `db'` the prefix already persisted (no
rollback of the earlier decrements) — and otherwise has its record's held
quantity decremented by the requested quantity with `lastStockUpdate` set to
now, processing then continuing with the remaining items. -/
theorem adjust_sequential_not_transactional (db db' : DB) (now : Nat)
    (pre : List AdjustItem) (x : AdjustItem) (rest : List AdjustItem)
    (hpre : adjustInventoryAfterOrder now db pre = (db', Except.ok ())) :
    (getInventoryByProductId db' x.productId = none →
      adjustInventoryAfterOrder now db (pre ++ x :: rest) =
        (db', Except.error ("No inventory found for product ID: " ++ x.productId))) ∧
    (∀ inv, getInventoryByProductId db' x.productId = some inv →
      inv.quantity < x.quantity →
      adjustInventoryAfterOrder now db (pre ++ x :: rest) =
        (db', Except.error ("Insufficient stock for product ID: " ++ x.productId))) ∧
    (∀ inv db'' u, getInventoryByProductId db' x.productId = some inv →
      ¬ inv.quantity < x.quantity →
      updateInventoryQuantity db' inv.id (inv.quantity - x.quantity) now =
        (db'', Except.ok u) →
      adjustInventoryAfterOrder now db (pre ++ x :: rest) =
        adjustInventoryAfterOrder now db'' rest ∧
      getInventoryByProductId db'' x.productId =
        some { inv with quantity := inv.quantity - x.quantity, lastStockUpdate := now }) := by
  refine ⟨?_, ?_, ?_⟩
  · intro hnone
    rw [adjust_append now pre (x :: rest) db, hpre]
    simp [adjustInventoryAfterOrder, hnone]
  · intro inv hsome hlt
    rw [adjust_append now pre (x :: rest) db, hpre]
    simp [adjustInventoryAfterOrder, hsome, hlt]
  · intro inv db'' u hsome hnlt hupd
    constructor
    · rw [adjust_append now pre (x :: rest) db, hpre]
      simp [adjustInventoryAfterOrder, hsome, hnlt, hupd]
    · obtain ⟨inv2, hfind2, hinv, -⟩ :=
        updateInventoryQuantity_ok db' inv.id (inv.quantity - x.quantity) now db'' u hupd
      exact getInventoryByProductId_after_update db' db'' inv (inv.quantity - x.quantity)
        now x.productId hsome hinv

/-- Witness for C4 on the two-product store: after item 1 decrements `p1` by
2, item 2 requests 2 of `p2` with only 1 held; the run fails with the
insufficient-stock error and the `p1` decrement stays persisted. -/
theorem adjust_sequential_not_transactional_witness :
    adjustInventoryAfterOrder 7 twoItemDB [⟨"p1", 2⟩, ⟨"p2", 2⟩] =
      ((adjustInventoryAfterOrder 7 twoItemDB [⟨"p1", 2⟩]).1,
        Except.error ("Insufficient stock for product ID: " ++ "p2")) := by
  have h := (adjust_sequential_not_transactional twoItemDB
      (adjustInventoryAfterOrder 7 twoItemDB [⟨"p1", 2⟩]).1 7 [⟨"p1", 2⟩] ⟨"p2", 2⟩ []
      (by decide)).2.1 ⟨"i2", "p2", 1, "Shelf B", 0⟩ (by decide) (by decide)
  simpa using h

/-- C8: immediately after a successful inventory create
(`addInventoryItem`), quantity update (`updateInventoryQuantity`), or delete
(`deleteInventoryItem`), the associated product's `inStock` flag equals
`quantity > 0` for the resulting inventory quantity — `false` after a
delete. -/
theorem inventory_ops_sync_inStock (db : DB) (input : InventoryInput)
    (newId invId : String) (newQ : Int) (now : Nat) :
    (∀ db' rid, addInventoryItem db input newId now = (db', Except.ok rid) →
      getProductDoc db' input.productId = some ⟨decide (0 < input.quantity), now⟩ ∧
      ∃ r, getInventoryByProductId db' input.productId = some r ∧
        r.quantity = input.quantity) ∧
    (∀ db' u, updateInventoryQuantity db invId newQ now = (db', Except.ok u) →
      ∃ inv, getInventoryById db invId = some inv ∧
        getProductDoc db' inv.productId = some ⟨decide (0 < newQ), now⟩) ∧
    (∀ db' u, deleteInventoryItem db invId now = (db', Except.ok u) →
      ∃ inv, getInventoryById db invId = some inv ∧
        getProductDoc db' inv.productId = some ⟨false, now⟩) := by
  refine ⟨?_, ?_, ?_⟩
  · intro db' rid hok
    unfold addInventoryItem at hok
    cases hp : getProductDoc db input.productId with
    | none =>
      simp only [hp] at hok
      simp at hok
    | some p =>
      simp only [hp] at hok
      cases hex : getInventoryByProductId db input.productId with
      | some e0 =>
        simp only [hex] at hok
        simp at hok
      | none =>
        simp only [hex] at hok
        simp only [Prod.mk.injEq] at hok
        obtain ⟨hdb, -⟩ := hok
        constructor
        · rw [← hdb]
          exact getProductDoc_setProductInStock _ input.productId _ now p hp
        · rw [← hdb]
          refine ⟨⟨newId, input.productId, input.quantity, input.location, now⟩, ?_, rfl⟩
          show ((db.inventory ++
              [(⟨newId, input.productId, input.quantity, input.location, now⟩ : InventoryItem)]).find?
            (fun item : InventoryItem => item.productId == input.productId)) = _
          rw [List.find?_append]
          unfold getInventoryByProductId at hex
          rw [hex]
          simp
  · intro db' u hok
    obtain ⟨inv, hfind, -, hprod⟩ :=
      updateInventoryQuantity_ok db invId newQ now db' u hok
    exact ⟨inv, hfind, hprod⟩
  · intro db' u hok
    unfold deleteInventoryItem at hok
    cases hfind : getInventoryById db invId with
    | none =>
      simp only [hfind] at hok
      simp at hok
    | some inv =>
      simp only [hfind] at hok
      cases hp : getProductDoc db inv.productId with
      | none =>
        simp only [hp] at hok
        simp at hok
      | some p =>
        simp only [hp] at hok
        simp only [Prod.mk.injEq] at hok
        obtain ⟨hdb, -⟩ := hok
        refine ⟨inv, rfl, ?_⟩
        rw [← hdb]
        exact getProductDoc_setProductInStock _ inv.productId _ now p hp

/-- Witness for C8: creating inventory for `p1` with quantity 3, updating
`i1` down to quantity 0, and deleting `i1` each leave the product flag equal
to `quantity > 0` for the resulting quantity. -/
theorem inventory_ops_sync_inStock_witness :
    (getProductDoc (addInventoryItem emptyInvDB ⟨"p1", 3, "Shelf A"⟩ "i9" 4).1 "p1" =
        some ⟨decide ((0 : Int) < 3), 4⟩ ∧
      ∃ r, getInventoryByProductId
          (addInventoryItem emptyInvDB ⟨"p1", 3, "Shelf A"⟩ "i9" 4).1 "p1" = some r ∧
        r.quantity = 3) ∧
    (∃ inv, getInventoryById stockedDB "i1" = some inv ∧
      getProductDoc (updateInventoryQuantity stockedDB "i1" 0 4).1 inv.productId =
        some ⟨decide ((0 : Int) < 0), 4⟩) ∧
    (∃ inv, getInventoryById stockedDB "i1" = some inv ∧
      getProductDoc (deleteInventoryItem stockedDB "i1" 4).1 inv.productId =
        some ⟨false, 4⟩) :=
  ⟨(inventory_ops_sync_inStock emptyInvDB ⟨"p1", 3, "Shelf A"⟩ "i9" "i1" 0 4).1
      (addInventoryItem emptyInvDB ⟨"p1", 3, "Shelf A"⟩ "i9" 4).1 "i9" (by decide),
   (inventory_ops_sync_inStock stockedDB ⟨"p1", 3, "Shelf A"⟩ "i9" "i1" 0 4).2.1
      (updateInventoryQuantity stockedDB "i1" 0 4).1 () (by decide),
   (inventory_ops_sync_inStock stockedDB ⟨"p1", 3, "Shelf A"⟩ "i9" "i1" 0 4).2.2
      (deleteInventoryItem stockedDB "i1" 4).1 () (by decide)⟩

/-- C3: when the supplied total differs from the recomputed item total by
strictly more than 0.01, `createOrder` fails with the total-mismatch error
and returns the store unchanged — the check runs before the persistence
write, so no order record is persisted. -/
theorem createOrder_total_mismatch_rejects (db : DB) (userId : String)
    (items : List OrderItem) (total : ℚ) (cd : Option Nat) (ct : Option String)
    (now : Nat) (oid : String)
    (h : |calculatedTotal items - total| > 1 / 100) :
    createOrder db userId items total cd ct now oid =
      (db, Except.error "Order total mismatch") := by
  unfold createOrder
  rw [if_pos h]

/-- Witness for C3: one line of 2 × 100 with supplied total 150 is rejected
with the store untouched. -/
theorem createOrder_total_mismatch_rejects_witness :
    createOrder stockedDB "u1" [⟨"p1", "Wooden Knife", 2, 100⟩] 150
        (some 10) (some "9:00 AM") 5 "o1" =
      (stockedDB, Except.error "Order total mismatch") :=
  createOrder_total_mismatch_rejects stockedDB "u1" [⟨"p1", "Wooden Knife", 2, 100⟩] 150
    (some 10) (some "9:00 AM") 5 "o1"
    (by norm_num [calculatedTotal, List.foldl_cons, List.foldl_nil])

/-- C10: `createOrder` performs no cart-emptiness or collection-schedule
validation: whenever the recomputed item total matches the supplied total
within 0.01 — the empty item list with total 0 and absent or past collection
dates included — it persists exactly one new order with status `pending`
(the backend write succeeding in this model); the empty-cart and past-date
checks live only in the checkout screen's `validateOrder`. -/
theorem createOrder_no_ui_validation (db : DB) (userId : String)
    (items : List OrderItem) (total : ℚ) (cd : Option Nat) (ct : Option String)
    (now : Nat) (oid : String)
    (h : |calculatedTotal items - total| ≤ 1 / 100) :
    ((createOrder db userId items total cd ct now oid).1).orders =
      db.orders ++ [pendingOrder oid userId items total cd ct now] ∧
    (∀ (s : CheckoutState) (n : Nat), s.cartItems = [] → validateOrder s n =
      some ("Empty Cart", "Your cart is empty. Please add items before checkout.")) ∧
    (∀ (s : CheckoutState) (d n : Nat), s.cartItems ≠ [] → s.collectionDate = some d →
      s.collectionTime ≠ "" → d < n → validateOrder s n =
      some ("Invalid Date", "Collection date must be in the future.")) := by
  refine ⟨?_, ?_, ?_⟩
  · have key : ∀ dbw : DB,
        ((match adjustInventoryAfterOrder now dbw (orderToAdjustItems items) with
          | (db2, Except.ok _) => (db2, Except.ok oid)
          | (db2, Except.error e) => (db2, Except.error e)).1).orders = dbw.orders := by
      intro dbw
      have horders := adjust_orders now (orderToAdjustItems items) dbw
      cases hadj : adjustInventoryAfterOrder now dbw (orderToAdjustItems items) with
      | mk db2 res =>
        rw [hadj] at horders
        cases res with
        | ok v => exact horders
        | error e => exact horders
    unfold createOrder
    rw [if_neg (not_lt.mpr h)]
    exact key { db with orders := db.orders ++ [pendingOrder oid userId items total cd ct now] }
  · intro s n hs
    unfold validateOrder
    rw [hs]
    rfl
  · intro s d n hne hd ht hdn
    unfold validateOrder
    rw [hd]
    have hni : s.cartItems.isEmpty = false := by
      cases hc : s.cartItems with
      | nil => exact absurd hc hne
      | cons a l => rfl
    rw [hni]
    simp [ht, hdn]

/-- Witness for C10: the empty item list with supplied total 0 and a
collection date (7) already in the past (now = 9) is persisted as a pending
order, while `validateOrder` rejects both an empty cart and that past date. -/
theorem createOrder_no_ui_validation_witness :
    ((createOrder stockedDB "u1" [] 0 (some 7) (some "9:00 AM") 9 "o3").1).orders =
      stockedDB.orders ++ [pendingOrder "o3" "u1" [] 0 (some 7) (some "9:00 AM") 9] ∧
    validateOrder ⟨[], some 7, "9:00 AM", some "u1"⟩ 9 =
      some ("Empty Cart", "Your cart is empty. Please add items before checkout.") ∧
    validateOrder ⟨sampleCart, some 7, "9:00 AM", some "u1"⟩ 9 =
      some ("Invalid Date", "Collection date must be in the future.") := by
  have h := createOrder_no_ui_validation stockedDB "u1" [] 0 (some 7) (some "9:00 AM") 9 "o3"
    (by norm_num [calculatedTotal, List.foldl_nil])
  exact ⟨h.1, h.2.1 ⟨[], some 7, "9:00 AM", some "u1"⟩ 9 rfl,
    h.2.2 ⟨sampleCart, some 7, "9:00 AM", some "u1"⟩ 7 9 (by decide) rfl (by decide) (by decide)⟩

theorem calculatedTotal_cartToOrderItems (l : List CartItem) :
    calculatedTotal (cartToOrderItems l) = totalAmount l := by
  unfold calculatedTotal cartToOrderItems totalAmount
  rw [List.foldl_map]

/-- C2: when inventory adjustment fails for a placed order (insufficient
stock or missing record on some line item), the whole placement fails:
`handlePlaceOrder` shows the generic failure alert and does NOT clear the
cart, although the order record was already persisted before adjustment
ran. -/
theorem place_order_adjust_failure (s : CheckoutState) (db : DB) (now : Nat)
    (oid uid : String) (cd : Nat) (e : String)
    (hval : validateOrder s now = none)
    (huser : s.currentUser = some uid)
    (hdate : s.collectionDate = some cd)
    (hadj : (adjustInventoryAfterOrder now
        { db with orders := db.orders ++ [pendingOrder oid uid (cartToOrderItems s.cartItems)
            (totalAmount s.cartItems) (some cd) (some s.collectionTime) now] }
        (orderToAdjustItems (cartToOrderItems s.cartItems))).2 = Except.error e) :
    (handlePlaceOrder s false db now oid).cartAfter = s.cartItems ∧
    (handlePlaceOrder s false db now oid).alert = some ("Error", genericFailureMessage) ∧
    ((handlePlaceOrder s false db now oid).db).orders =
      db.orders ++ [pendingOrder oid uid (cartToOrderItems s.cartItems)
        (totalAmount s.cartItems) (some cd) (some s.collectionTime) now] := by
  have hno : ¬ |calculatedTotal (cartToOrderItems s.cartItems) - totalAmount s.cartItems| >
      1 / 100 := by
    rw [calculatedTotal_cartToOrderItems]
    simp
  have horders := adjust_orders now (orderToAdjustItems (cartToOrderItems s.cartItems))
    { db with orders := db.orders ++ [pendingOrder oid uid (cartToOrderItems s.cartItems)
        (totalAmount s.cartItems) (some cd) (some s.collectionTime) now] }
  unfold handlePlaceOrder
  simp only [hval, huser, hdate]
  unfold createOrder
  rw [if_neg hno]
  cases hfull : adjustInventoryAfterOrder now
      { db with orders := db.orders ++ [pendingOrder oid uid (cartToOrderItems s.cartItems)
          (totalAmount s.cartItems) (some cd) (some s.collectionTime) now] }
      (orderToAdjustItems (cartToOrderItems s.cartItems)) with
  | mk db2 res =>
    rw [hfull] at hadj horders
    cases res with
    | ok v => exact absurd hadj (by simp)
    | error e2 =>
      injection hadj with he
      subst he
      simp only [Bool.false_eq_true, if_false, hfull]
      exact ⟨trivial, trivial, by simpa using horders⟩

/-- Witness for C2, the spec scenario: the cart requests 2 units of `p1` but
inventory holds 1; adjustment fails, the generic failure alert is shown, the
cart keeps its line, and the pending order was already persisted. -/
theorem place_order_adjust_failure_witness :
    (handlePlaceOrder sampleCheckout false lowStockDB 5 "o1").cartAfter = sampleCart ∧
    (handlePlaceOrder sampleCheckout false lowStockDB 5 "o1").alert =
      some ("Error", genericFailureMessage) ∧
    ((handlePlaceOrder sampleCheckout false lowStockDB 5 "o1").db).orders =
      lowStockDB.orders ++ [pendingOrder "o1" "u1" (cartToOrderItems sampleCart)
        (totalAmount sampleCart) (some 10) (some "9:00 AM") 5] :=
  place_order_adjust_failure sampleCheckout lowStockDB 5 "o1" "u1" 10
    ("Insufficient stock for product ID: " ++ "p1") (by decide) rfl rfl (by decide)

/-- C1 counterexample: the checkout screen contains no connectivity gate;
with the device offline and an otherwise valid checkout state,
`handlePlaceOrder` still attempts the remote call and surfaces the generic
failure alert rather than an offline-specific one (though the cart is
unchanged) — so the claim that an offline attempt is blocked before any
remote call with an offline-specific error fails on this input. -/
theorem offline_checkout_not_blocked_counterexample :
    (handlePlaceOrder sampleCheckout true stockedDB 5 "o1").remoteAttempted = true ∧
    (handlePlaceOrder sampleCheckout true stockedDB 5 "o1").alert =
      some ("Error", genericFailureMessage) ∧
    (handlePlaceOrder sampleCheckout true stockedDB 5 "o1").cartAfter = sampleCart :=
  ⟨rfl, rfl, rfl⟩

/-- C1 amended: an offline checkout attempt that passes the screen's local
validation is NOT blocked before the remote call — `handlePlaceOrder`
attempts it, the write fails with a network error, the user is shown the
generic failure alert (no offline-specific message), nothing is persisted,
and the cart contents are unchanged. -/
theorem offline_checkout_attempts_remote (s : CheckoutState) (db : DB) (now : Nat)
    (oid uid : String) (cd : Nat)
    (hval : validateOrder s now = none)
    (huser : s.currentUser = some uid)
    (hdate : s.collectionDate = some cd) :
    (handlePlaceOrder s true db now oid).remoteAttempted = true ∧
    (handlePlaceOrder s true db now oid).db = db ∧
    (handlePlaceOrder s true db now oid).cartAfter = s.cartItems ∧
    (handlePlaceOrder s true db now oid).alert =
      some ("Error", genericFailureMessage) := by
  unfold handlePlaceOrder
  simp only [hval, huser, hdate, if_true]
  exact ⟨trivial, trivial, trivial, trivial⟩

/-- Witness for the amended C1 at the sample checkout state. -/
theorem offline_checkout_attempts_remote_witness :
    (handlePlaceOrder sampleCheckout true stockedDB 5 "o2").remoteAttempted = true ∧
    (handlePlaceOrder sampleCheckout true stockedDB 5 "o2").db = stockedDB ∧
    (handlePlaceOrder sampleCheckout true stockedDB 5 "o2").cartAfter = sampleCart ∧
    (handlePlaceOrder sampleCheckout true stockedDB 5 "o2").alert =
      some ("Error", genericFailureMessage) :=
  offline_checkout_attempts_remote sampleCheckout stockedDB 5 "o2" "u1" 10
    (by decide) rfl rfl
